import Mathlib

/-
  Verification of doordash_scraper.py: a shallow embedding of the
  fetch-paginate-cache-validate pipeline and the normalization/pivot
  transform, with theorems settling the specification claims.
-/

namespace DD

/-- JSON values as decoded by json.loads: null, booleans, numbers (modelled
as integers; no claim involves fractional numbers), strings, arrays, and
objects (ordered association lists, mirroring the insertion-ordered keys of
a decoded Python dictionary). -/
inductive Json where
  | null
  | bool (b : Bool)
  | num (n : Int)
  | str (s : String)
  | arr (elems : List Json)
  | obj (fields : List (String × Json))

mutual

/-- Structural equality of JSON values (the equality Python == computes on
decoded JSON data). -/
def Json.beq : Json → Json → Bool
  | .null, .null => true
  | .bool a, .bool b => a == b
  | .num a, .num b => a == b
  | .str a, .str b => a == b
  | .arr as, .arr bs => Json.beqArr as bs
  | .obj as, .obj bs => Json.beqObj as bs
  | _, _ => false

def Json.beqArr : List Json → List Json → Bool
  | [], [] => true
  | a :: as, b :: bs => Json.beq a b && Json.beqArr as bs
  | _, _ => false

def Json.beqObj : List (String × Json) → List (String × Json) → Bool
  | [], [] => true
  | (k, a) :: as, (l, b) :: bs => k == l && Json.beq a b && Json.beqObj as bs
  | _, _ => false

end

mutual

theorem Json.eq_of_beq : ∀ {a b : Json}, Json.beq a b = true → a = b
  | .null, .null, _ => rfl
  | .bool _, .bool _, h => congrArg Json.bool (by simpa [Json.beq] using h)
  | .num _, .num _, h => congrArg Json.num (by simpa [Json.beq] using h)
  | .str _, .str _, h => congrArg Json.str (by simpa [Json.beq] using h)
  | .arr as, .arr bs, h =>
      congrArg Json.arr (Json.eqArr_of_beq (by simpa [Json.beq] using h))
  | .obj as, .obj bs, h =>
      congrArg Json.obj (Json.eqObj_of_beq (by simpa [Json.beq] using h))
  | .null, .bool _, h => nomatch h
  | .null, .num _, h => nomatch h
  | .null, .str _, h => nomatch h
  | .null, .arr _, h => nomatch h
  | .null, .obj _, h => nomatch h
  | .bool _, .null, h => nomatch h
  | .bool _, .num _, h => nomatch h
  | .bool _, .str _, h => nomatch h
  | .bool _, .arr _, h => nomatch h
  | .bool _, .obj _, h => nomatch h
  | .num _, .null, h => nomatch h
  | .num _, .bool _, h => nomatch h
  | .num _, .str _, h => nomatch h
  | .num _, .arr _, h => nomatch h
  | .num _, .obj _, h => nomatch h
  | .str _, .null, h => nomatch h
  | .str _, .bool _, h => nomatch h
  | .str _, .num _, h => nomatch h
  | .str _, .arr _, h => nomatch h
  | .str _, .obj _, h => nomatch h
  | .arr _, .null, h => nomatch h
  | .arr _, .bool _, h => nomatch h
  | .arr _, .num _, h => nomatch h
  | .arr _, .str _, h => nomatch h
  | .arr _, .obj _, h => nomatch h
  | .obj _, .null, h => nomatch h
  | .obj _, .bool _, h => nomatch h
  | .obj _, .num _, h => nomatch h
  | .obj _, .str _, h => nomatch h
  | .obj _, .arr _, h => nomatch h

theorem Json.eqArr_of_beq : ∀ {as bs : List Json}, Json.beqArr as bs = true → as = bs
  | [], [], _ => rfl
  | a :: as, b :: bs, h => by
      rw [Json.beqArr, Bool.and_eq_true] at h
      rw [Json.eq_of_beq h.1, Json.eqArr_of_beq h.2]
  | [], _ :: _, h => nomatch h
  | _ :: _, [], h => nomatch h

theorem Json.eqObj_of_beq :
    ∀ {as bs : List (String × Json)}, Json.beqObj as bs = true → as = bs
  | [], [], _ => rfl
  | (k, a) :: as, (l, b) :: bs, h => by
      rw [Json.beqObj, Bool.and_eq_true, Bool.and_eq_true] at h
      rw [show k = l by simpa using h.1.1, Json.eq_of_beq h.1.2,
        Json.eqObj_of_beq h.2]
  | [], _ :: _, h => nomatch h
  | _ :: _, [], h => nomatch h

end

mutual

theorem Json.beq_refl : ∀ a : Json, Json.beq a a = true
  | .null => rfl
  | .bool b => by simp [Json.beq]
  | .num n => by simp [Json.beq]
  | .str s => by simp [Json.beq]
  | .arr as => by rw [Json.beq]; exact Json.beqArr_refl as
  | .obj fs => by rw [Json.beq]; exact Json.beqObj_refl fs

theorem Json.beqArr_refl : ∀ as : List Json, Json.beqArr as as = true
  | [] => rfl
  | a :: as => by
      rw [Json.beqArr, Bool.and_eq_true]
      exact ⟨Json.beq_refl a, Json.beqArr_refl as⟩

theorem Json.beqObj_refl : ∀ as : List (String × Json), Json.beqObj as as = true
  | [] => rfl
  | (k, a) :: as => by
      rw [Json.beqObj, Bool.and_eq_true, Bool.and_eq_true]
      exact ⟨⟨by simp, Json.beq_refl a⟩, Json.beqObj_refl as⟩

end

instance : DecidableEq Json := fun a b =>
  if h : Json.beq a b = true then isTrue (Json.eq_of_beq h)
  else isFalse (fun hh => h (hh ▸ Json.beq_refl a))

/-- First binding of a key in the fields of a JSON object (Python dict keys
are unique, so first-match lookup coincides with dict lookup). -/
def lookupField : List (String × Json) → String → Option Json
  | [], _ => none
  | (k, v) :: rest, key => if k = key then some v else lookupField rest key

/-- Python truthiness of a decoded JSON value. -/
def Json.truthy : Json → Bool
  | .null => false
  | .bool b => b
  | .num n => n != 0
  | .str s => s != ""
  | .arr xs => !xs.isEmpty
  | .obj fs => !fs.isEmpty

/-- Is the first list an initial segment of the second (character lists). -/
def isPre : List Char → List Char → Bool
  | [], _ => true
  | _ :: _, [] => false
  | a :: as, b :: bs => a == b && isPre as bs

/-- Does the first list occur as a contiguous run inside the second. -/
def containsSeq : List Char → List Char → Bool
  | needle, [] => needle.isEmpty
  | needle, c :: rest => isPre needle (c :: rest) || containsSeq needle rest

/-- The Python substring test: needle in haystack, for strings. -/
def strIn (needle haystack : String) : Bool :=
  containsSeq needle.toList haystack.toList

/-- An uncaught Python exception raised by indexing or attribute access on a
value of an unexpected runtime type. -/
inductive PyErr where
  | keyError
  | typeError
  deriving DecidableEq

/-- The fatal conditions raised while validating one fetched page, keeping
the distinctions the source draws via separate raise sites. The spec names
them SchemaDriftError, ApiError and MalformedResponseError; the source
raises RuntimeError with distinct messages at distinct sites. -/
inductive FetchErr where
  | schemaDrift (msg : String)
  | apiError (msg : String)
  | malformedResponse (keys : List String)
  | pyErr (e : PyErr)
  deriving DecidableEq

/-- Actionable message of the RuntimeError raised when an API error message
references the known query name (apostrophes of the source text omitted). -/
def driftMsgQuery : String :=
  "DoorDash changed their order history GraphQL query. Capture the new query from doordash.com (look for GraphQL calls in DevTools Network tab) and update ORDERS_QUERY to match."

/-- Actionable message of the RuntimeError raised when the expected field is
absent or null under the data key (apostrophes of the source text omitted). -/
def driftMsgMissing : String :=
  "DoorDash response did not include getConsumerOrdersWithDetails. Update ORDERS_QUERY to match the current API."

/-- Error classification of fetch_all_orders when the decoded response has a
top-level errors key: the message is the message field of the first error if
the errors value is truthy, else the literal Unknown error; a message that
mentions getConsumerOrdersWithDetails or ordersHistory is schema drift,
anything else a generic API error carrying the message (the source renders
it after the constant prefix GraphQL API error followed by a colon). Indexing a
truthy non-array errors value, a first error that is not an object, or a
non-string message raise uncaught Python exceptions, modelled as pyErr. -/
def classifyErrors (ev : Json) : FetchErr :=
  let msgE : Except PyErr String :=
    if ev.truthy then
      match ev with
      | .arr (first :: _) =>
          match first with
          | .obj efs =>
              match lookupField efs "message" with
              | some (.str m) => .ok m
              | some _ => .error .typeError
              | none => .error .keyError
          | _ => .error .typeError
      | _ => .error .typeError
    else .ok "Unknown error"
  match msgE with
  | .error e => .pyErr e
  | .ok m =>
      if strIn "getConsumerOrdersWithDetails" m || strIn "ordersHistory" m then
        .schemaDrift driftMsgQuery
      else
        .apiError m

/-- Outcome of validating one fetched page inside the fetch_all_orders loop:
abort with an error, terminate the stream (falsy batch), or yield the order
summaries of the page. -/
inductive PageStep where
  | fail (e : FetchErr)
  | done
  | yieldOrders (orders : List Json)
  deriving DecidableEq

/-- The per-page validation of fetch_all_orders, in source order: a present
errors key is classified; a missing data key is a malformed response whose
message carries the top-level keys; a missing or null
getConsumerOrdersWithDetails under data is schema drift; a falsy batch ends
the stream; a truthy array batch is yielded. Calling .get on a non-object
data value, or iterating a truthy non-array batch, is modelled as pyErr
(Python would raise AttributeError, or iterate strings and dicts
element-wise; no claim depends on those inputs). -/
def classifyPage (data : List (String × Json)) : PageStep :=
  match lookupField data "errors" with
  | some ev => .fail (classifyErrors ev)
  | none =>
      match lookupField data "data" with
      | none => .fail (.malformedResponse (data.map (fun f => f.1)))
      | some d =>
          match d with
          | .obj inner =>
              match lookupField inner "getConsumerOrdersWithDetails" with
              | none => .fail (.schemaDrift driftMsgMissing)
              | some .null => .fail (.schemaDrift driftMsgMissing)
              | some v =>
                  if v.truthy then
                    match v with
                    | .arr os => .yieldOrders os
                    | _ => .fail (.pyErr .typeError)
                  else .done
          | _ => .fail (.pyErr .typeError)

/-- Result of running the fetch_all_orders loop for a bounded number of
pages: the generator finished (the loop broke on a falsy batch), an error
aborted it, or the page budget ran out with the loop still going; in every
case carrying the order summaries yielded so far, in order. -/
inductive FetchResult where
  | terminated (out : List Json)
  | failed (out : List Json) (e : FetchErr)
  | outOfFuel (out : List Json)
  deriving DecidableEq

/-- The fetch_all_orders loop over an abstract page oracle: page i is the
decoded response fetched at offset 20 * i (offset bookkeeping is deterministic,
so pages are indexed by loop iteration). The fuel bounds how many pages may
be examined. -/
def fetchLoop (pages : Nat → List (String × Json)) : Nat → Nat → FetchResult
  | _, 0 => .outOfFuel []
  | i, fuel + 1 =>
      match classifyPage (pages i) with
      | .fail e => .failed [] e
      | .done => .terminated []
      | .yieldOrders os =>
          match fetchLoop pages (i + 1) fuel with
          | .terminated out => .terminated (os ++ out)
          | .failed out e => .failed (os ++ out) e
          | .outOfFuel out => .outOfFuel (os ++ out)

/-- fetch_all_orders: run the page loop from offset 0. -/
def fetch_all_orders (pages : Nat → List (String × Json)) (fuel : Nat) :
    FetchResult :=
  fetchLoop pages 0 fuel

/-- The list of order summaries a valid page carries: the empty list for a
page that terminates the stream, the batch for a yielding page, none for a
page that aborts the run. -/
def pageOrders (data : List (String × Json)) : Option (List Json) :=
  match classifyPage data with
  | .done => some []
  | .yieldOrders os => some os
  | .fail _ => none

/-- Concatenation, in order, of the order summaries of pages i, i+1, ...,
i+n-1. -/
def concatPages (pages : Nat → List (String × Json)) : Nat → Nat → List Json
  | _, 0 => []
  | i, n + 1 => ((pageOrders (pages i)).getD []) ++ concatPages pages (i + 1) n

/-- One key of the on-disk response cache: the persisted file for a given
(limit, offset) request is missing, present but undecodable (IOError or
ValueError on load), or holds a stored payload. -/
inductive CacheVal where
  | absent
  | corrupt
  | stored (payload : Json)
  deriving DecidableEq

/-- fetch_orders_persisted: look up the persisted record for (limit, offset);
on a readable record return it with was_persisted true and the store
untouched; otherwise call the network fetch, persist the decoded payload
under the key, and return it with was_persisted false. The network fetch is
an oracle argument so that independence from it can be stated. -/
def fetch_orders_persisted (store : Nat × Nat → CacheVal)
    (fetch : Nat → Nat → Json) (limit offset : Nat) :
    Json × Bool × (Nat × Nat → CacheVal) :=
  match store (limit, offset) with
  | .stored payload => (payload, true, store)
  | _ =>
      let data := fetch limit offset
      (data, false, fun k => if k = (limit, offset) then .stored data else store k)

instance {ε α : Type} [DecidableEq ε] [DecidableEq α] :
    DecidableEq (Except ε α) := fun a b =>
  match a, b with
  | .ok x, .ok y =>
      if h : x = y then isTrue (by rw [h]) else isFalse (by simp [h])
  | .error x, .error y =>
      if h : x = y then isTrue (by rw [h]) else isFalse (by simp [h])
  | .ok _, .error _ => isFalse (by simp)
  | .error _, .ok _ => isFalse (by simp)

/-- Python str.strip on a character list: drop whitespace from both ends. -/
def stripChars (l : List Char) : List Char :=
  ((l.dropWhile Char.isWhitespace).reverse.dropWhile Char.isWhitespace).reverse

/-- Python str.strip (ASCII whitespace suffices for every claim). -/
def pyStrip (s : String) : String :=
  String.mk (stripChars s.toList)

/-- Python dict .get with default None on a decoded JSON object. -/
def pyGet (fs : List (String × Json)) (k : String) : Json :=
  (lookupField fs k).getD .null

/-- Python or on decoded JSON values: the first operand when truthy, else
the second (short-circuit is irrelevant here because both operands are
already-computed values). -/
def pyOr (a b : Json) : Json :=
  if a.truthy then a else b

/-- A string field rendered into an f-string, with a default for falsy
values. A truthy non-string value would be rendered by Python str(); that
case is modelled as a type error and is exercised by no claim. -/
def strOrDefault (j : Json) (dflt : String) : Except PyErr String :=
  if j.truthy then
    match j with
    | .str s => .ok s
    | _ => .error .typeError
  else .ok dflt

/-- A required string field: indexing with a missing key raises KeyError; a
non-string value would be rendered by the f-string and is modelled as a
type error (exercised by no claim). -/
def reqStr (fs : List (String × Json)) (k : String) : Except PyErr String :=
  match lookupField fs k with
  | none => .error .keyError
  | some (.str s) => .ok s
  | some _ => .error .typeError

/-- Person-name resolution of execute for one sub-order: a truthy creator
record yields firstName (defaulted to Unknown when falsy or missing) plus a
space plus lastName (defaulted to the empty string), stripped; a falsy or
missing creator yields Unknown. A truthy non-object creator would raise
AttributeError on .get, modelled as a type error. -/
def resolvePerson (sub : List (String × Json)) : Except PyErr String :=
  let creator := pyGet sub "creator"
  if creator.truthy then
    match creator with
    | .obj cfs => do
        let first ← strOrDefault (pyGet cfs "firstName") "Unknown"
        let last ← strOrDefault (pyGet cfs "lastName") ""
        pure (pyStrip (first ++ " " ++ last))
    | _ => .error .typeError
  else pure "Unknown"

/-- Iterate the value of an optional list field, defaulting to the empty
list when the key is absent: a present non-array value is modelled as a
type error (Python would raise TypeError for most values, or iterate
strings and dicts element-wise; no claim depends on those inputs). -/
def iterDefault (fs : List (String × Json)) (k : String) :
    Except PyErr (List Json) :=
  match lookupField fs k with
  | none => .ok []
  | some (.arr xs) => .ok xs
  | some _ => .error .typeError

/-- Body of the inner option loop: append the pair of the enclosing extra
name and this option name. -/
def optionStep (ename : String) (acc2 : List (String × String)) (o : Json) :
    Except PyErr (List (String × String)) :=
  match o with
  | .obj ofs => do
      let oname ← reqStr ofs "name"
      pure (acc2 ++ [(ename, oname)])
  | _ => .error .typeError

/-- Body of the outer extra loop: read the extra name, then walk its
options in order. -/
def extraStep (acc : List (String × String)) (e : Json) :
    Except PyErr (List (String × String)) :=
  match e with
  | .obj efs => do
      let ename ← reqStr efs "name"
      let opts ← iterDefault efs "orderItemExtraOptions"
      opts.foldlM (optionStep ename) acc
  | _ => .error .typeError

/-- The (extra name, option name) pairs collected for one item, in source
order: the outer loop walks orderItemExtras, the inner loop walks each
orderItemExtraOptions, appending one pair per option. -/
def itemOptionPairs (ifs : List (String × Json)) :
    Except PyErr (List (String × String)) := do
  let extras ← iterDefault ifs "orderItemExtras"
  extras.foldlM extraStep []

/-- options_string: each pair rendered as name, colon, space, value, the
renderings joined with a comma and a space. -/
def optionsString (pairs : List (String × String)) : String :=
  String.intercalate ", " (pairs.map (fun pr => pr.1 ++ ": " ++ pr.2))

/-- One flat row of the normalized output. The order id is kept as a raw
JSON value: the source stores whatever the id resolution produced. -/
structure Row where
  order_id : Json
  date : Json
  store : String
  person : String
  item : String
  options : String
  deriving DecidableEq

/-- The row appended for one item of a sub-order. -/
def itemRow (oid dateJ : Json) (store person : String) (it : Json) :
    Except PyErr Row :=
  match it with
  | .obj ifs => do
      let iname ← reqStr ifs "name"
      let pairs ← itemOptionPairs ifs
      pure ⟨oid, dateJ, store, person, iname, optionsString pairs⟩
  | _ => .error .typeError

/-- Body of the item loop: build the row of this item and append it. -/
def itemStep (oid dateJ : Json) (store person : String) (acc : List Row)
    (it : Json) : Except PyErr (List Row) := do
  let r ← itemRow oid dateJ store person it
  pure (acc ++ [r])

/-- The rows contributed by one sub-order: resolve the person name, then
append one row per entry of the items list, in order. -/
def subOrderRows (oid dateJ : Json) (store : String)
    (sub : List (String × Json)) : Except PyErr (List Row) := do
  let person ← resolvePerson sub
  let items ← match lookupField sub "items" with
    | none => Except.error PyErr.keyError
    | some (.arr xs) => Except.ok xs
    | some _ => Except.error PyErr.typeError
  items.foldlM (itemStep oid dateJ store person) []

/-- Line 190 of the source: order_id is orderUuid when truthy, else the id
value; Python or short-circuits, so a truthy orderUuid never reads the id
key; a key that is read but missing raises KeyError. -/
def resolveOrderId (cart : List (String × Json)) : Except PyErr Json :=
  match lookupField cart "orderUuid" with
  | none => .error .keyError
  | some u =>
      if u.truthy then .ok u
      else
        match lookupField cart "id" with
        | none => .error .keyError
        | some i => .ok i

/-- The rows contributed by one order cart, mirroring the body of the
execute loop: the store name, the delivery time (submittedAt, else
createdAt, else the sentinel 1900-01-01T00:00:00Z when falsy), the id
resolution, then the rows of each sub-order of the orders list, in order. -/
def orderRows (cart : List (String × Json)) : Except PyErr (List Row) := do
  let store ← match lookupField cart "store" with
    | none => Except.error PyErr.keyError
    | some (.obj sfs) => reqStr sfs "name"
    | some _ => Except.error PyErr.typeError
  let dt := pyOr (pyGet cart "submittedAt") (pyGet cart "createdAt")
  let oid ← resolveOrderId cart
  let dateJ := if dt.truthy then dt else Json.str "1900-01-01T00:00:00Z"
  let subs ← match lookupField cart "orders" with
    | none => Except.error PyErr.keyError
    | some (.arr xs) => Except.ok xs
    | some _ => Except.error PyErr.typeError
  subs.foldlM (fun acc s =>
    match s with
    | .obj sfs => do
        let rs ← subOrderRows oid dateJ store sfs
        pure (acc ++ rs)
    | _ => Except.error PyErr.typeError) []

/-- The full flatten of execute: rows accumulated over every order summary
yielded by the fetch, in order. -/
def executeRows (orders : List Json) : Except PyErr (List Row) :=
  orders.foldlM (fun acc oc =>
    match oc with
    | .obj cfs => do
        let rs ← orderRows cfs
        pure (acc ++ rs)
    | _ => Except.error PyErr.typeError) []

/-- Python dict write: update the value in place when the key is present
(keeping its position), else append the binding at the end, as insertion
ordered dicts do. -/
def dictSet (d : List (String × Json)) (k : String) (v : Json) :
    List (String × Json) :=
  match d with
  | [] => [(k, v)]
  | (k0, v0) :: rest =>
      if k0 = k then (k0, v) :: rest else (k0, v0) :: dictSet rest k v

/-- The three dict writes performed for one row on its order group: date,
store, then the cell of the person column, item, dot, space, options. -/
def groupUpd (g : List (String × Json)) (r : Row) : List (String × Json) :=
  dictSet (dictSet (dictSet g "date" r.date) "store" (.str r.store))
    r.person (.str (r.item ++ ". " ++ r.options))

/-- A write through by_order_id: find the group of the key, creating an
empty group at the end on first touch as defaultdict does, and apply the
row update to it. -/
def setGroup (gs : List (Json × List (String × Json))) (k : Json) (r : Row) :
    List (Json × List (String × Json)) :=
  match gs with
  | [] => [(k, groupUpd [] r)]
  | (k0, g) :: rest =>
      if k0 = k then (k0, groupUpd g r) :: rest else (k0, g) :: setGroup rest k r

/-- by_order_id after processing every row: groups in insertion order of the
first appearance of each order id. -/
def pivotGroups (rows : List Row) : List (Json × List (String × Json)) :=
  rows.foldl (fun gs r => setGroup gs r.order_id r) []

/-- Lookup of one group by order id. -/
def lookupGroup :
    List (Json × List (String × Json)) → Json → Option (List (String × Json))
  | [], _ => none
  | (k0, g) :: rest, k => if k0 = k then some g else lookupGroup rest k

/-- The cell of the pivot table at a given order id and column name. -/
def pivotCell (rows : List Row) (k : Json) (p : String) : Option Json :=
  match lookupGroup (pivotGroups rows) k with
  | some g => lookupField g p
  | none => none

/-- One increment of person_counter: bump the count in place when the person
is present, else append a fresh count of one at the end (a Counter iterates
its keys in insertion order). -/
def countStep (c : List (String × Nat)) (p : String) : List (String × Nat) :=
  match c with
  | [] => [(p, 1)]
  | (q, n) :: rest =>
      if q = p then (q, n + 1) :: rest else (q, n) :: countStep rest p

/-- person_counter after counting every row. -/
def personCounter (rows : List Row) : List (String × Nat) :=
  rows.foldl (fun c r => countStep c r.person) []

/-- Stable insertion into a list sorted by count descending: the new entry
goes in front of the first entry whose count does not exceed it; since the
new entry precedes the tail entries in the original order, equal counts
keep their original order. -/
def insertByCount (x : String × Nat) : List (String × Nat) → List (String × Nat)
  | [] => [x]
  | y :: ys => if y.2 ≤ x.2 then x :: y :: ys else y :: insertByCount x ys

/-- most_common with no argument: the items of the counter sorted by count
descending; CPython implements it as sorted with key count and reverse set,
a stable sort, so equal counts keep the insertion order of the counter. -/
def mostCommon : List (String × Nat) → List (String × Nat)
  | [] => []
  | x :: xs => insertByCount x (mostCommon xs)

/-- The pivot column persons, most frequent first. -/
def pivotPeople (rows : List Row) : List String :=
  (mostCommon (personCounter rows)).map (fun x => x.1)

/-- The spec example order: one order with two sub-orders, Amy orders a
Taco with no extras, Bo orders a Burrito with the extra Protein and the
selected option Steak. -/
def exOrder : Json := .obj [
  ("id", .num 7),
  ("orderUuid", .str "order-1"),
  ("createdAt", .str "2023-05-01T12:00:00Z"),
  ("submittedAt", .null),
  ("store", .obj [("id", .num 1), ("name", .str "Taqueria")]),
  ("orders", .arr [
    .obj [("id", .num 11),
      ("creator", .obj [("id", .num 21), ("firstName", .str "Amy"), ("lastName", .null)]),
      ("items", .arr [
        .obj [("id", .num 31), ("name", .str "Taco"), ("orderItemExtras", .arr [])]])],
    .obj [("id", .num 12),
      ("creator", .obj [("id", .num 22), ("firstName", .str "Bo"), ("lastName", .null)]),
      ("items", .arr [
        .obj [("id", .num 32), ("name", .str "Burrito"),
          ("orderItemExtras", .arr [
            .obj [("name", .str "Protein"),
              ("orderItemExtraOptions", .arr [.obj [("name", .str "Steak")]])]])]])]])]

/-- First occurrences of a list in order, skipping elements seen before. -/
def firstOccurAux [DecidableEq α] (seen : List α) : List α → List α
  | [] => []
  | x :: xs =>
      if x ∈ seen then firstOccurAux seen xs
      else x :: firstOccurAux (x :: seen) xs

/-- The deduplicated list of first occurrences. -/
def firstOccur [DecidableEq α] (l : List α) : List α :=
  firstOccurAux [] l

/-- The two-page oracle of the C1 witness: one page with one summary, then
empty pages. -/
def pagesW : Nat → List (String × Json)
  | 0 => [("data", .obj [("getConsumerOrdersWithDetails", .arr [.str "o1"])])]
  | _ + 1 => [("data", .obj [("getConsumerOrdersWithDetails", .arr [])])]

/-- Concrete store of the C4 witness: the page (20, 0) is cached, every
other key holds an unreadable record. -/
def storeW : Nat × Nat → CacheVal := fun k =>
  if k = (20, 0) then .stored (.str "cached") else .corrupt

/-- Constructor for one option record as the API shapes it. -/
def mkOption (o : String) : Json :=
  .obj [("name", .str o)]

/-- Constructor for one extra record with its option names, as the API
shapes it. -/
def mkExtra (pr : String × List String) : Json :=
  .obj [("name", .str pr.1),
    ("orderItemExtraOptions", .arr (pr.2.map mkOption))]

/-- First item of the C7 witness sub-order: a Taco with no extras. -/
def itemW1 : Json := .obj [("name", .str "Taco")]

/-- Second item of the C7 witness sub-order: a Burrito with one extra. -/
def itemW2 : Json := .obj [("name", .str "Burrito"),
  ("orderItemExtras", .arr [mkExtra ("Protein", ["Steak"])])]

/-- The C7 witness sub-order with two items. -/
def subW : List (String × Json) :=
  [("creator", .obj [("firstName", .str "Amy")]),
   ("items", .arr [itemW1, itemW2])]

/-- The expected row of each C7 witness item. -/
def rowW : Json → Row := fun it =>
  if it = itemW1 then ⟨.str "o", .str "D", "Store", "Amy", "Taco", ""⟩
  else ⟨.str "o", .str "D", "Store", "Amy", "Burrito", "Protein: Steak"⟩

/-- The count of one person in the counter, zero when absent. -/
def lookupCount : List (String × Nat) → String → Nat
  | [], _ => 0
  | (q, n) :: rest, p => if q = p then n else lookupCount rest p

/-- A row of the C8 and C9 witnesses: Amy in order a. -/
def rowA : Row := ⟨.str "a", .str "2023-01-01", "S", "Amy", "Taco", ""⟩

/-- A row of the C8 and C9 witnesses: Bo in order a. -/
def rowB : Row := ⟨.str "a", .str "2023-01-01", "S", "Bo", "Burrito", "Protein: Steak"⟩

/-- A row of the C8 and C9 witnesses: Bo again, in order b. -/
def rowB2 : Row := ⟨.str "b", .str "2023-01-02", "S", "Bo", "Bowl", ""⟩

/-- Reduction of the error classification when the first error is an object
with a string message: the known-name test on that message decides between
schema drift and the generic API error. -/
theorem classifyErrors_first_message (efs : List (String × Json))
    (rest : List Json) (m : String)
    (hm : lookupField efs "message" = some (.str m)) :
    classifyErrors (.arr (.obj efs :: rest)) =
      if (strIn "getConsumerOrdersWithDetails" m || strIn "ordersHistory" m) = true
      then .schemaDrift driftMsgQuery else .apiError m := by
  unfold classifyErrors
  simp [Json.truthy, hm]

/-- C10: a fetched page whose decoded response maps the key errors to an
empty array still aborts the run with the generic API error whose message
is Unknown error: an empty errors array is treated neither as success nor
as schema drift. -/
theorem c10_empty_errors_is_generic_api_error (data : List (String × Json))
    (h : lookupField data "errors" = some (.arr [])) :
    classifyPage data = .fail (.apiError "Unknown error") := by
  simp only [classifyPage, h]
  decide

/-- Witness for C10 at a concrete response. -/
theorem c10_witness :
    classifyPage [("errors", Json.arr []), ("data", .null)]
      = .fail (.apiError "Unknown error") :=
  c10_empty_errors_is_generic_api_error _ rfl

set_option maxRecDepth 16384 in
/-- C2: a page whose decoded response has a top-level errors array is
fatal: when the first error message mentions getConsumerOrdersWithDetails
or ordersHistory the classification is the schema-drift error naming the
query to update, otherwise the generic API error carrying that message; a
failed classification aborts the fetch_all_orders loop at that page; and
the example message Cannot query field getConsumerOrdersWithDetails yields
the schema-drift error, never the generic API error. -/
theorem c2_errors_classified :
    (∀ (data efs : List (String × Json)) (rest : List Json) (m : String),
       lookupField data "errors" = some (.arr (.obj efs :: rest)) →
       lookupField efs "message" = some (.str m) →
       classifyPage data =
         .fail (if (strIn "getConsumerOrdersWithDetails" m
                    || strIn "ordersHistory" m) = true
                then .schemaDrift driftMsgQuery else .apiError m))
    ∧ (∀ (pages : Nat → List (String × Json)) (fuel : Nat) (e : FetchErr),
       classifyPage (pages 0) = .fail e →
       fetch_all_orders pages (fuel + 1) = .failed [] e)
    ∧ classifyPage [("errors", .arr [.obj [("message",
         .str "Cannot query field getConsumerOrdersWithDetails")]])]
        = .fail (.schemaDrift driftMsgQuery)
    ∧ (∀ m : String, classifyPage [("errors", .arr [.obj [("message",
         .str "Cannot query field getConsumerOrdersWithDetails")]])]
        ≠ .fail (.apiError m)) := by
  have hex : classifyPage [("errors", .arr [.obj [("message",
      .str "Cannot query field getConsumerOrdersWithDetails")]])]
      = .fail (.schemaDrift driftMsgQuery) := by decide
  refine ⟨?_, ?_, hex, ?_⟩
  · intro data efs rest m h hm
    simp only [classifyPage, h]
    rw [classifyErrors_first_message efs rest m hm]
  · intro pages fuel e h
    simp [fetch_all_orders, fetchLoop, h]
  · intro m hcontra
    rw [hex] at hcontra
    simp at hcontra

/-- Witness for C2 at a concrete response whose first error message
mentions neither known name: the classification is the generic API error
branch of the conditional. -/
theorem c2_witness :
    classifyPage [("errors", Json.arr [.obj [("message", .str "rate limited")]])]
      = .fail (if (strIn "getConsumerOrdersWithDetails" "rate limited"
                   || strIn "ordersHistory" "rate limited") = true
               then .schemaDrift driftMsgQuery else .apiError "rate limited") :=
  c2_errors_classified.1 _ _ _ _ rfl rfl

/-- C3: with no top-level errors key, a response without a data key aborts
as the malformed-response error carrying the present top-level keys, and a
response whose data object lacks getConsumerOrdersWithDetails, or maps it
to null, aborts as the schema-drift error naming the query to update; the
conditions are distinct named conditions and neither is an unclassified
missing-key crash. -/
theorem c3_shape_validation :
    (∀ data : List (String × Json),
       lookupField data "errors" = none →
       lookupField data "data" = none →
       classifyPage data = .fail (.malformedResponse (data.map (fun f => f.1))))
    ∧ (∀ (data inner : List (String × Json)),
       lookupField data "errors" = none →
       lookupField data "data" = some (.obj inner) →
       lookupField inner "getConsumerOrdersWithDetails" = none →
       classifyPage data = .fail (.schemaDrift driftMsgMissing))
    ∧ (∀ (data inner : List (String × Json)),
       lookupField data "errors" = none →
       lookupField data "data" = some (.obj inner) →
       lookupField inner "getConsumerOrdersWithDetails" = some .null →
       classifyPage data = .fail (.schemaDrift driftMsgMissing))
    ∧ (∀ (ks : List String) (m : String),
        FetchErr.malformedResponse ks ≠ .schemaDrift m)
    ∧ (∀ (ks : List String) (e : PyErr), FetchErr.malformedResponse ks ≠ .pyErr e)
    ∧ (∀ (m : String) (e : PyErr), FetchErr.schemaDrift m ≠ .pyErr e) := by
  refine ⟨?_, ?_, ?_, ?_, ?_, ?_⟩
  · intro data he hd
    simp only [classifyPage, he, hd]
  · intro data inner he hd hf
    simp only [classifyPage, he, hd, hf]
  · intro data inner he hd hf
    simp only [classifyPage, he, hd, hf]
  · intro ks m h
    simp at h
  · intro ks e h
    simp at h
  · intro m e h
    simp at h

/-- Witness for C3 at concrete responses: a response with only an ok key is
malformed; a response whose data object is empty is schema drift. -/
theorem c3_witness :
    classifyPage [("ok", Json.bool true)]
      = .fail (.malformedResponse ["ok"])
    ∧ classifyPage [("data", Json.obj [])]
      = .fail (.schemaDrift driftMsgMissing) :=
  ⟨c3_shape_validation.1 _ rfl rfl,
   c3_shape_validation.2.1 _ [] rfl rfl rfl⟩

/-- A yielded batch is never empty: the loop breaks on a falsy batch before
ever yielding. -/
theorem yieldOrders_ne_nil {d : List (String × Json)} {os : List Json}
    (h : classifyPage d = .yieldOrders os) : os ≠ [] := by
  unfold classifyPage at h
  split at h
  · exact PageStep.noConfusion h
  · split at h
    · exact PageStep.noConfusion h
    · split at h
      · split at h
        · exact PageStep.noConfusion h
        · exact PageStep.noConfusion h
        · split at h
          · split at h
            · intro hnil
              simp_all [Json.truthy]
            · exact PageStep.noConfusion h
          · exact PageStep.noConfusion h
      · exact PageStep.noConfusion h

/-- An ending page has an empty batch. -/
theorem pageOrders_done {d : List (String × Json)}
    (h : classifyPage d = .done) : pageOrders d = some [] := by
  simp [pageOrders, h]

/-- A yielding page carries its batch. -/
theorem pageOrders_yield {d : List (String × Json)} {os : List Json}
    (h : classifyPage d = .yieldOrders os) : pageOrders d = some os := by
  simp [pageOrders, h]

/-- A valid page either ends the stream or yields a non-empty batch. -/
theorem classify_of_isSome {d : List (String × Json)}
    (h : (pageOrders d).isSome = true) :
    classifyPage d = .done
      ∨ ∃ os, classifyPage d = .yieldOrders os ∧ os ≠ [] := by
  rcases hc : classifyPage d with e | _ | os
  · unfold pageOrders at h
    rw [hc] at h
    simp at h
  · exact Or.inl rfl
  · exact Or.inr ⟨os, rfl, yieldOrders_ne_nil hc⟩

/-- Behaviour of the fetch loop over valid pages, from any start index: the
loop finishes exactly when an empty batch occurs within the fuel, and a
finished run stops at the first empty page, returning the concatenation of
the batches before it. -/
theorem fetchLoop_spec (pages : Nat → List (String × Json))
    (hvalid : ∀ i, (pageOrders (pages i)).isSome = true) :
    ∀ fuel i : Nat,
      ((∃ out, fetchLoop pages i fuel = .terminated out) ↔
        ∃ k, k < fuel ∧ pageOrders (pages (i + k)) = some [])
      ∧ (∀ out, fetchLoop pages i fuel = .terminated out →
          ∃ n, n < fuel ∧ pageOrders (pages (i + n)) = some []
            ∧ (∀ j, j < n → pageOrders (pages (i + j)) ≠ some [])
            ∧ out = concatPages pages i n) := by
  intro fuel
  induction fuel with
  | zero =>
      intro i
      refine ⟨⟨?_, ?_⟩, ?_⟩
      · rintro ⟨out, hout⟩
        exact absurd hout (by simp [fetchLoop])
      · rintro ⟨k, hk, _⟩
        omega
      · intro out hout
        exact absurd hout (by simp [fetchLoop])
  | succ fuel ih =>
      intro i
      rcases classify_of_isSome (hvalid i) with hdone | ⟨os, hyield, hne⟩
      · have hstep : fetchLoop pages i (fuel + 1) = .terminated [] := by
          simp [fetchLoop, hdone]
        have hpo : pageOrders (pages i) = some [] := pageOrders_done hdone
        refine ⟨⟨?_, ?_⟩, ?_⟩
        · intro _
          exact ⟨0, Nat.succ_pos fuel, by simpa using hpo⟩
        · intro _
          exact ⟨[], hstep⟩
        · intro out hout
          rw [hstep] at hout
          injection hout with h'
          refine ⟨0, Nat.succ_pos fuel, by simpa using hpo, ?_, ?_⟩
          · intro j hj
            omega
          · rw [← h']
            rfl
      · have hpo : pageOrders (pages i) = some os := pageOrders_yield hyield
        have hne2 : pageOrders (pages i) ≠ some [] := by
          rw [hpo]
          intro hcontra
          injection hcontra with h'
          exact hne h'
        have hstep : ∀ r, fetchLoop pages (i + 1) fuel = r →
            fetchLoop pages i (fuel + 1) =
              (match r with
               | .terminated out => .terminated (os ++ out)
               | .failed out e => .failed (os ++ out) e
               | .outOfFuel out => .outOfFuel (os ++ out)) := by
          intro r hr
          simp [fetchLoop, hyield, hr]
        refine ⟨⟨?_, ?_⟩, ?_⟩
        · rintro ⟨out, hout⟩
          rcases hrec : fetchLoop pages (i + 1) fuel with out2 | ⟨out2, e2⟩ | out2
          · rcases ((ih (i + 1)).1).1 ⟨out2, hrec⟩ with ⟨k, hk, hempty⟩
            refine ⟨k + 1, by omega, ?_⟩
            have harith : i + (k + 1) = i + 1 + k := by omega
            rw [harith]
            exact hempty
          · rw [hstep _ hrec] at hout
            exact absurd hout (by simp)
          · rw [hstep _ hrec] at hout
            exact absurd hout (by simp)
        · rintro ⟨k, hk, hempty⟩
          rcases k with _ | k2
          · exact absurd (by simpa using hempty) hne2
          · have harith : i + (k2 + 1) = i + 1 + k2 := by omega
            rw [harith] at hempty
            rcases ((ih (i + 1)).1).2 ⟨k2, by omega, hempty⟩ with ⟨out2, hrec⟩
            exact ⟨os ++ out2, by rw [hstep _ hrec]⟩
        · intro out hout
          rcases hrec : fetchLoop pages (i + 1) fuel with out2 | ⟨out2, e2⟩ | out2
          · rw [hstep _ hrec] at hout
            injection hout with h'
            rcases (ih (i + 1)).2 out2 hrec with ⟨n, hn, hempty, hfirst, hcat⟩
            refine ⟨n + 1, by omega, ?_, ?_, ?_⟩
            · have harith : i + (n + 1) = i + 1 + n := by omega
              rw [harith]
              exact hempty
            · intro j hj
              rcases j with _ | j2
              · simpa using hne2
              · have harith : i + (j2 + 1) = i + 1 + j2 := by omega
                rw [harith]
                exact hfirst j2 (by omega)
            · rw [← h', hcat]
              simp [concatPages, hpo]
          · rw [hstep _ hrec] at hout
            exact absurd hout (by simp)
          · rw [hstep _ hrec] at hout
            exact absurd hout (by simp)

/-- C1: over valid pages the order-summary stream of fetch_all_orders, run
with any page budget, terminates exactly when some page within the budget
returns zero order summaries; a terminating run stops at the first empty
page, never at a non-empty one, and the yielded stream is the
concatenation of every earlier batch, each in the order received, page
after page. -/
theorem c1_stream_termination (pages : Nat → List (String × Json))
    (fuel : Nat) (hvalid : ∀ i, (pageOrders (pages i)).isSome = true) :
    ((∃ out, fetch_all_orders pages fuel = .terminated out) ↔
      ∃ k, k < fuel ∧ pageOrders (pages k) = some [])
    ∧ (∀ out, fetch_all_orders pages fuel = .terminated out →
        ∃ n, n < fuel ∧ pageOrders (pages n) = some []
          ∧ (∀ j, j < n → pageOrders (pages j) ≠ some [])
          ∧ out = concatPages pages 0 n) := by
  have h := fetchLoop_spec pages hvalid fuel 0
  simpa [fetch_all_orders] using h

/-- Witness for C1: with the concrete oracle the stream terminates within
two pages, at the first empty page, and yields the single summary. -/
theorem c1_witness :
    ∃ n, n < 2 ∧ pageOrders (pagesW n) = some []
      ∧ (∀ j, j < n → pageOrders (pagesW j) ≠ some [])
      ∧ [Json.str "o1"] = concatPages pagesW 0 n :=
  (c1_stream_termination pagesW 2
    (fun i => by cases i <;> rfl)).2 [Json.str "o1"] rfl

/-- C4: get-or-fetch behaviour of the response cache. A stored record for
the key is returned verbatim, with was_persisted true, without consulting
the network fetch, and without changing the store; a missing or corrupt
record follows one identical miss path: the network payload is returned
with was_persisted false and persisted under exactly this key, every other
key left untouched, and no error is surfaced. -/
theorem c4_cache_get_or_fetch :
    (∀ (store : Nat × Nat → CacheVal) (fetch fetch2 : Nat → Nat → Json)
       (limit offset : Nat) (p : Json),
       store (limit, offset) = .stored p →
       fetch_orders_persisted store fetch limit offset = (p, true, store)
         ∧ fetch_orders_persisted store fetch limit offset
             = fetch_orders_persisted store fetch2 limit offset)
    ∧ (∀ (store : Nat × Nat → CacheVal) (fetch : Nat → Nat → Json)
       (limit offset : Nat),
       store (limit, offset) = .absent ∨ store (limit, offset) = .corrupt →
       (fetch_orders_persisted store fetch limit offset).1 = fetch limit offset
         ∧ (fetch_orders_persisted store fetch limit offset).2.1 = false
         ∧ (fetch_orders_persisted store fetch limit offset).2.2 (limit, offset)
             = .stored (fetch limit offset)
         ∧ ∀ k, k ≠ (limit, offset) →
             (fetch_orders_persisted store fetch limit offset).2.2 k = store k) := by
  constructor
  · intro store fetch fetch2 limit offset p h
    constructor <;> simp [fetch_orders_persisted, h]
  · intro store fetch limit offset h
    have hms : ∀ k, k ≠ (limit, offset) →
        (fun k2 => if k2 = (limit, offset) then CacheVal.stored (fetch limit offset)
          else store k2) k = store k := by
      intro k hk
      simp [hk]
    rcases h with h | h
    · exact ⟨by simp [fetch_orders_persisted, h], by simp [fetch_orders_persisted, h],
        by simp [fetch_orders_persisted, h], by simpa [fetch_orders_persisted, h] using hms⟩
    · exact ⟨by simp [fetch_orders_persisted, h], by simp [fetch_orders_persisted, h],
        by simp [fetch_orders_persisted, h], by simpa [fetch_orders_persisted, h] using hms⟩

/-- Witness for C4: the concrete hit returns the cached payload with no
fetch influence, and the concrete corrupt key re-fetches and persists. -/
theorem c4_witness :
    fetch_orders_persisted storeW (fun _ _ => .str "net") 20 0
        = (.str "cached", true, storeW)
    ∧ (fetch_orders_persisted storeW (fun _ _ => .str "net") 20 20).2.2 (20, 20)
        = .stored (.str "net") :=
  ⟨(c4_cache_get_or_fetch.1 storeW _ (fun _ _ => .null) 20 0 _ (by decide)).1,
   (c4_cache_get_or_fetch.2 storeW _ 20 20 (Or.inr (by decide))).2.2.1⟩

/-- C5 counterexample: the code has no malformed-skip path for absent or
null ids. An order whose orderUuid and id are both null is processed, not
skipped: execute emits its item row carrying a null order id; and an order
lacking both keys aborts the whole run with an uncaught KeyError instead of
being skipped with a warning. -/
theorem c5_counterexample :
    orderRows [("orderUuid", .null), ("id", .null),
        ("store", .obj [("name", .str "Store")]),
        ("orders", .arr [.obj [
          ("creator", .obj [("firstName", .str "Amy")]),
          ("items", .arr [.obj [("name", .str "Taco")]])]])]
      = .ok [⟨.null, .str "1900-01-01T00:00:00Z", "Store", "Amy", "Taco", ""⟩]
    ∧ orderRows [("store", .obj [("name", .str "Store")]), ("orders", .arr [])]
      = .error .keyError := by
  constructor <;> decide

/-- C5 amended: order ids resolve by preferring a truthy orderUuid and
falling back to the id value; there is no non-emptiness check and no skip:
a falsy resolution is used as is, and a key that is read but missing is an
uncaught KeyError that aborts the run. -/
theorem c5_order_id_resolution :
    (∀ (cart : List (String × Json)) (u : Json),
       lookupField cart "orderUuid" = some u → u.truthy = true →
       resolveOrderId cart = .ok u)
    ∧ (∀ (cart : List (String × Json)) (u i : Json),
       lookupField cart "orderUuid" = some u → u.truthy = false →
       lookupField cart "id" = some i →
       resolveOrderId cart = .ok i)
    ∧ (∀ cart : List (String × Json),
       lookupField cart "orderUuid" = none →
       resolveOrderId cart = .error .keyError)
    ∧ (∀ (cart : List (String × Json)) (u : Json),
       lookupField cart "orderUuid" = some u → u.truthy = false →
       lookupField cart "id" = none →
       resolveOrderId cart = .error .keyError) := by
  refine ⟨?_, ?_, ?_, ?_⟩
  · intro cart u hu ht
    simp [resolveOrderId, hu, ht]
  · intro cart u i hu ht hi
    simp [resolveOrderId, hu, ht, hi]
  · intro cart hu
    simp [resolveOrderId, hu]
  · intro cart u hu ht hi
    simp [resolveOrderId, hu, ht, hi]

/-- Witness for C5 at concrete carts: a truthy orderUuid wins, a null one
falls back to the id value. -/
theorem c5_witness :
    resolveOrderId [("orderUuid", .str "u-1"), ("id", .num 5)] = .ok (.str "u-1")
    ∧ resolveOrderId [("orderUuid", .null), ("id", .num 5)] = .ok (.num 5) :=
  ⟨c5_order_id_resolution.1 _ _ rfl rfl,
   c5_order_id_resolution.2.1 _ _ _ rfl rfl rfl⟩

/-- C6: person resolution of execute. A missing or null creator yields
Unknown; a creator with both name fields missing or null yields Unknown; a
creator with two truthy string names yields their space-joined stripped
concatenation; a truthy first name with a missing or null last name yields
the stripped first name (the trailing space of the join is stripped). -/
theorem c6_person_resolution :
    (∀ sub : List (String × Json),
       lookupField sub "creator" = none → resolvePerson sub = .ok "Unknown")
    ∧ (∀ sub : List (String × Json),
       lookupField sub "creator" = some .null → resolvePerson sub = .ok "Unknown")
    ∧ (∀ (sub cfs : List (String × Json)),
       lookupField sub "creator" = some (.obj cfs) →
       (lookupField cfs "firstName" = none ∨ lookupField cfs "firstName" = some .null) →
       (lookupField cfs "lastName" = none ∨ lookupField cfs "lastName" = some .null) →
       resolvePerson sub = .ok "Unknown")
    ∧ (∀ (sub cfs : List (String × Json)) (f l : String),
       lookupField sub "creator" = some (.obj cfs) →
       lookupField cfs "firstName" = some (.str f) → f ≠ "" →
       lookupField cfs "lastName" = some (.str l) → l ≠ "" →
       resolvePerson sub = .ok (pyStrip (f ++ " " ++ l)))
    ∧ (∀ (sub cfs : List (String × Json)) (f : String),
       lookupField sub "creator" = some (.obj cfs) →
       lookupField cfs "firstName" = some (.str f) → f ≠ "" →
       (lookupField cfs "lastName" = none ∨ lookupField cfs "lastName" = some .null) →
       resolvePerson sub = .ok (pyStrip (f ++ " "))) := by
  refine ⟨?_, ?_, ?_, ?_, ?_⟩
  · intro sub hc
    simp [resolvePerson, pyGet, hc, Json.truthy]
    rfl
  · intro sub hc
    simp [resolvePerson, pyGet, hc, Json.truthy]
    rfl
  · intro sub cfs hc hf hl
    by_cases hne : cfs = []
    · subst hne
      simp [resolvePerson, pyGet, hc, Json.truthy]
      rfl
    · rcases List.exists_cons_of_ne_nil hne with ⟨p0, cfs2, hcons⟩
      subst hcons
      have hf3 : (lookupField (p0 :: cfs2) "firstName").getD Json.null = .null := by
        rcases hf with h | h <;> simp [h]
      have hl3 : (lookupField (p0 :: cfs2) "lastName").getD Json.null = .null := by
        rcases hl with h | h <;> simp [h]
      simp [resolvePerson, pyGet, hc, Json.truthy, hf3, hl3]
      decide
  · intro sub cfs f l hc hf hfne hl hlne
    have hne : cfs ≠ [] := by
      intro h
      subst h
      simp [lookupField] at hf
    rcases List.exists_cons_of_ne_nil hne with ⟨p0, cfs2, hcons⟩
    subst hcons
    simp [resolvePerson, pyGet, hc, Json.truthy, hf, hl, strOrDefault, hfne, hlne]
    rfl
  · intro sub cfs f hc hf hfne hl
    have hne : cfs ≠ [] := by
      intro h
      subst h
      simp [lookupField] at hf
    rcases List.exists_cons_of_ne_nil hne with ⟨p0, cfs2, hcons⟩
    subst hcons
    have hl3 : (lookupField (p0 :: cfs2) "lastName").getD Json.null = .null := by
      rcases hl with h | h <;> simp [h]
    have happ : f ++ " " ++ "" = f ++ " " := String.append_empty _
    have hgoal : strOrDefault (Json.str f) "Unknown" = .ok f := by
      simp [strOrDefault, Json.truthy, hfne]
    simp [resolvePerson, pyGet, hc, Json.truthy, hf, hl3, hgoal]
    show Except.ok (pyStrip (f ++ " " ++ "")) = Except.ok (pyStrip (f ++ " "))
    rw [happ]

/-- Witness for C6 at the spec example creator: first name Amy, last name
null, resolves to Amy. -/
theorem c6_witness :
    resolvePerson [("creator", .obj [("firstName", .str "Amy"), ("lastName", .null)])]
      = .ok "Amy" := by
  have h := c6_person_resolution.2.2.2.2
    [("creator", .obj [("firstName", .str "Amy"), ("lastName", .null)])]
    [("firstName", .str "Amy"), ("lastName", .null)] "Amy"
    rfl rfl (by decide) (Or.inr rfl)
  have hstrip : pyStrip ("Amy" ++ " ") = "Amy" := by decide
  rw [hstrip] at h
  exact h

/-- The inner option fold over canonically shaped options appends one pair
per option, in order. -/
theorem foldlM_optionStep (ename : String) :
    ∀ (os : List String) (acc : List (String × String)),
      (os.map mkOption).foldlM (optionStep ename) acc
        = .ok (acc ++ os.map (fun o => (ename, o))) := by
  intro os
  induction os with
  | nil =>
      intro acc
      simp
      rfl
  | cons o os2 ih =>
      intro acc
      simp only [List.map_cons, List.foldlM]
      rw [show optionStep ename acc (mkOption o) = .ok (acc ++ [(ename, o)]) by
        unfold optionStep mkOption reqStr lookupField
        simp]
      show (os2.map mkOption).foldlM (optionStep ename) (acc ++ [(ename, o)]) = _
      rw [ih (acc ++ [(ename, o)])]
      simp

/-- The outer extra fold over canonically shaped extras appends the pairs
of each extra, extras in order, options in order inside each extra. -/
theorem foldlM_extraStep :
    ∀ (exdata : List (String × List String)) (acc : List (String × String)),
      (exdata.map mkExtra).foldlM extraStep acc
        = .ok (acc ++ exdata.flatMap (fun pr => pr.2.map (fun o => (pr.1, o)))) := by
  intro exdata
  induction exdata with
  | nil =>
      intro acc
      simp
      rfl
  | cons pr rest ih =>
      intro acc
      have h1 : lookupField [("name", Json.str pr.1),
          ("orderItemExtraOptions", Json.arr (pr.2.map mkOption))] "name"
          = some (Json.str pr.1) := by
        unfold lookupField
        simp
      have h2 : lookupField [("name", Json.str pr.1),
          ("orderItemExtraOptions", Json.arr (pr.2.map mkOption))]
            "orderItemExtraOptions"
          = some (Json.arr (pr.2.map mkOption)) := by
        unfold lookupField
        rw [if_neg (by decide)]
        unfold lookupField
        simp
      have hreq : reqStr [("name", Json.str pr.1),
          ("orderItemExtraOptions", Json.arr (pr.2.map mkOption))] "name"
          = .ok pr.1 := by
        unfold reqStr
        rw [h1]
      have hiter : iterDefault [("name", Json.str pr.1),
          ("orderItemExtraOptions", Json.arr (pr.2.map mkOption))]
            "orderItemExtraOptions"
          = .ok (pr.2.map mkOption) := by
        unfold iterDefault
        rw [h2]
      simp only [List.map_cons, List.foldlM]
      rw [show extraStep acc (mkExtra pr)
          = .ok (acc ++ pr.2.map (fun o => (pr.1, o))) by
        show (do
          let ename ← reqStr [("name", Json.str pr.1),
            ("orderItemExtraOptions", Json.arr (pr.2.map mkOption))] "name"
          let opts ← iterDefault [("name", Json.str pr.1),
            ("orderItemExtraOptions", Json.arr (pr.2.map mkOption))]
              "orderItemExtraOptions"
          opts.foldlM (optionStep ename) acc) = _
        rw [hreq, hiter]
        show (pr.2.map mkOption).foldlM (optionStep pr.1) acc = _
        rw [foldlM_optionStep pr.1 pr.2 acc]]
      show (rest.map mkExtra).foldlM extraStep
          (acc ++ pr.2.map (fun o => (pr.1, o))) = _
      rw [ih (acc ++ pr.2.map (fun o => (pr.1, o)))]
      simp

/-- The item fold appends exactly one row per item when every item row
resolves. -/
theorem foldlM_itemStep (oid dateJ : Json) (store person : String) :
    ∀ (its : List Json) (φ : Json → Row),
      (∀ x ∈ its, itemRow oid dateJ store person x = .ok (φ x)) →
      ∀ acc : List Row,
        its.foldlM (itemStep oid dateJ store person) acc
          = .ok (acc ++ its.map φ) := by
  intro its
  induction its with
  | nil =>
      intro φ _ acc
      simp
      rfl
  | cons x xs ih =>
      intro φ h acc
      have hx := h x (List.mem_cons_self x xs)
      simp only [List.map_cons, List.foldlM]
      rw [show itemStep oid dateJ store person acc x = .ok (acc ++ [φ x]) by
        unfold itemStep
        rw [hx]
        rfl]
      show xs.foldlM (itemStep oid dateJ store person) (acc ++ [φ x]) = _
      rw [ih φ (fun y hy => h y (List.mem_cons_of_mem x hy)) (acc ++ [φ x])]
      simp

/-- C7: flattening emits exactly one flat row per item of a sub-order, the
n-th row built from the n-th item in input order; each row carries the item
name together with the options summary, the comma-and-space join of the
(extra name, option name) pairs in source order, rendered name, colon,
space, value; and the summary is empty when the item has no extras. -/
theorem c7_one_row_per_item :
    (∀ (oid dateJ : Json) (store : String) (sub : List (String × Json))
       (person : String) (its : List Json) (φ : Json → Row),
       resolvePerson sub = .ok person →
       lookupField sub "items" = some (.arr its) →
       (∀ x ∈ its, itemRow oid dateJ store person x = .ok (φ x)) →
       subOrderRows oid dateJ store sub = .ok (its.map φ)
         ∧ (its.map φ).length = its.length
         ∧ (∀ n : Nat, (its.map φ).get? n = (its.get? n).map φ))
    ∧ (∀ (oid dateJ : Json) (store person : String)
       (ifs : List (String × Json)) (nm : String)
       (pairs : List (String × String)),
       reqStr ifs "name" = .ok nm → itemOptionPairs ifs = .ok pairs →
       itemRow oid dateJ store person (.obj ifs)
         = .ok ⟨oid, dateJ, store, person, nm, optionsString pairs⟩)
    ∧ (∀ (ifs : List (String × Json)) (exdata : List (String × List String)),
       lookupField ifs "orderItemExtras" = some (.arr (exdata.map mkExtra)) →
       itemOptionPairs ifs
         = .ok (exdata.flatMap (fun pr => pr.2.map (fun o => (pr.1, o)))))
    ∧ (∀ ifs : List (String × Json),
       lookupField ifs "orderItemExtras" = none → itemOptionPairs ifs = .ok [])
    ∧ (∀ pairs : List (String × String),
       optionsString pairs
         = String.intercalate ", " (pairs.map (fun pr => pr.1 ++ ": " ++ pr.2)))
    ∧ optionsString [] = "" := by
  refine ⟨?_, ?_, ?_, ?_, fun _ => rfl, by decide⟩
  · intro oid dateJ store sub person its φ hperson hitems hφ
    refine ⟨?_, by simp, by simp⟩
    unfold subOrderRows
    rw [hperson]
    show (do
      let items ← match lookupField sub "items" with
        | none => Except.error PyErr.keyError
        | some (.arr xs) => Except.ok xs
        | some _ => Except.error PyErr.typeError
      items.foldlM (itemStep oid dateJ store person) []) = _
    rw [hitems]
    show its.foldlM (itemStep oid dateJ store person) [] = _
    rw [foldlM_itemStep oid dateJ store person its φ hφ []]
    simp
  · intro oid dateJ store person ifs nm pairs hnm hpairs
    show (do
      let iname ← reqStr ifs "name"
      let pairs2 ← itemOptionPairs ifs
      pure (Row.mk oid dateJ store person iname (optionsString pairs2))) = _
    rw [hnm]
    show (do
      let pairs2 ← itemOptionPairs ifs
      pure (Row.mk oid dateJ store person nm (optionsString pairs2))) = _
    rw [hpairs]
    rfl
  · intro ifs exdata hx
    unfold itemOptionPairs iterDefault
    rw [hx]
    show (exdata.map mkExtra).foldlM extraStep [] = _
    rw [foldlM_extraStep exdata []]
    simp
  · intro ifs hx
    unfold itemOptionPairs iterDefault
    rw [hx]
    rfl

/-- Witness for C7: the concrete two-item sub-order flattens to exactly its
two rows, in order. -/
theorem c7_witness :
    subOrderRows (.str "o") (.str "D") "Store" subW
      = .ok ([itemW1, itemW2].map rowW) :=
  (c7_one_row_per_item.1 (.str "o") (.str "D") "Store" subW "Amy"
    [itemW1, itemW2] rowW (by decide) (by decide) (by decide)).1

/-- Membership after a stable insertion. -/
theorem mem_insertByCount (x y : String × Nat) :
    ∀ l : List (String × Nat), y ∈ insertByCount x l ↔ y = x ∨ y ∈ l := by
  intro l
  induction l with
  | nil => simp [insertByCount]
  | cons z zs ih =>
      unfold insertByCount
      by_cases h : z.2 ≤ x.2
      · simp [h]
      · simp [h, ih]
        tauto

/-- A stable insertion keeps the list sorted by count descending. -/
theorem insertByCount_pairwise (x : String × Nat) :
    ∀ l, List.Pairwise (fun a b => b.2 ≤ a.2) l →
      List.Pairwise (fun a b => b.2 ≤ a.2) (insertByCount x l) := by
  intro l
  induction l with
  | nil =>
      intro _
      simp [insertByCount]
  | cons z zs ih =>
      intro hp
      rcases List.pairwise_cons.mp hp with ⟨hz, hzs⟩
      unfold insertByCount
      by_cases h : z.2 ≤ x.2
      · rw [if_pos h]
        refine List.pairwise_cons.mpr ⟨?_, hp⟩
        intro b hb
        rcases List.mem_cons.mp hb with rfl | hb2
        · exact h
        · exact le_trans (hz b hb2) h
      · rw [if_neg h]
        refine List.pairwise_cons.mpr ⟨?_, ih hzs⟩
        intro b hb
        rcases (mem_insertByCount x b zs).mp hb with rfl | hb2
        · omega
        · exact hz b hb2

/-- most_common sorts by count descending. -/
theorem mostCommon_pairwise :
    ∀ c, List.Pairwise (fun a b => b.2 ≤ a.2) (mostCommon c) := by
  intro c
  induction c with
  | nil => simp [mostCommon]
  | cons x xs ih => exact insertByCount_pairwise x (mostCommon xs) ih

/-- Stability of the insertion: restricted to one count value it prepends
or is invisible. -/
theorem filter_insertByCount (x : String × Nat) (n : Nat) :
    ∀ l, (insertByCount x l).filter (fun y => y.2 == n)
      = if x.2 = n then x :: l.filter (fun y => y.2 == n)
        else l.filter (fun y => y.2 == n) := by
  intro l
  induction l with
  | nil =>
      unfold insertByCount
      by_cases hx : x.2 = n
      · have hb : (x.2 == n) = true := by simp [hx]
        simp [List.filter, hb, hx]
      · have hb : (x.2 == n) = false := by simp [hx]
        simp [List.filter, hb, hx]
  | cons z zs ih =>
      unfold insertByCount
      by_cases h : z.2 ≤ x.2
      · rw [if_pos h]
        by_cases hx : x.2 = n
        · have hb : (x.2 == n) = true := by simp [hx]
          simp [List.filter_cons, hb, hx]
        · have hb : (x.2 == n) = false := by simp [hx]
          simp [List.filter_cons, hb, hx]
      · rw [if_neg h]
        by_cases hx : x.2 = n
        · have hz : ¬ z.2 = n := by omega
          have hbz : (z.2 == n) = false := by simp [hz]
          simp [List.filter_cons, hbz, hx, ih]
        · by_cases hz : z.2 = n
          · have hbz : (z.2 == n) = true := by simp [hz]
            simp [List.filter_cons, hbz, hx, ih]
          · have hbz : (z.2 == n) = false := by simp [hz]
            simp [List.filter_cons, hbz, hx, ih]

/-- Stability of most_common: entries of one count value keep the order of
the counter. -/
theorem mostCommon_filter (n : Nat) :
    ∀ c, (mostCommon c).filter (fun y => y.2 == n)
      = c.filter (fun y => y.2 == n) := by
  intro c
  induction c with
  | nil => rfl
  | cons x xs ih =>
      unfold mostCommon
      rw [filter_insertByCount]
      by_cases hx : x.2 = n
      · have hb : (x.2 == n) = true := by simp [hx]
        simp [List.filter_cons, hb, hx, ih]
      · have hb : (x.2 == n) = false := by simp [hx]
        simp [List.filter_cons, hb, hx, ih]

/-- One counter increment leaves the keys unchanged when the person is
present and appends the person otherwise. -/
theorem countStep_keys (p : String) :
    ∀ c, (countStep c p).map (fun x => x.1)
      = if p ∈ c.map (fun x => x.1) then c.map (fun x => x.1)
        else c.map (fun x => x.1) ++ [p] := by
  intro c
  induction c with
  | nil => simp [countStep]
  | cons z rest ih =>
      rcases z with ⟨q, m⟩
      unfold countStep
      by_cases h : q = p
      · subst h
        simp
      · rw [if_neg h]
        by_cases hmem : p ∈ rest.map (fun x => x.1)
        · simp [h, hmem, ih, Ne.symm h]
        · simp [h, hmem, ih, Ne.symm h]

/-- One group write leaves the group keys unchanged when the order id is
present and appends it otherwise. -/
theorem setGroup_keys (k : Json) (r : Row) :
    ∀ gs, (setGroup gs k r).map (fun e => e.1)
      = if k ∈ gs.map (fun e => e.1) then gs.map (fun e => e.1)
        else gs.map (fun e => e.1) ++ [k] := by
  intro gs
  induction gs with
  | nil => simp [setGroup]
  | cons z rest ih =>
      rcases z with ⟨q, g⟩
      unfold setGroup
      by_cases h : q = k
      · subst h
        simp
      · rw [if_neg h]
        by_cases hmem : k ∈ rest.map (fun e => e.1)
        · simp [h, hmem, ih, Ne.symm h]
        · simp [h, hmem, ih, Ne.symm h]

/-- Unfolding of firstOccurAux on a cons. -/
theorem firstOccurAux_cons [DecidableEq α] (s : List α) (x : α) (xs : List α) :
    firstOccurAux s (x :: xs)
      = if x ∈ s then firstOccurAux s xs else x :: firstOccurAux (x :: s) xs := rfl

/-- firstOccurAux only consults membership of the seen list. -/
theorem firstOccurAux_congr [DecidableEq α] :
    ∀ (l s t : List α), (∀ a, a ∈ s ↔ a ∈ t) →
      firstOccurAux s l = firstOccurAux t l := by
  intro l
  induction l with
  | nil => intro s t _; rfl
  | cons x xs ih =>
      intro s t hst
      unfold firstOccurAux
      by_cases hx : x ∈ s
      · rw [if_pos hx, if_pos ((hst x).mp hx), ih s t hst]
      · rw [if_neg hx, if_neg (fun hc => hx ((hst x).mpr hc)),
          ih (x :: s) (x :: t) (by intro a; simp [hst a])]

/-- Keys of an insertion-ordered keyed fold: the keys of the result are the
starting keys followed by the first occurrences of the new keys. -/
theorem foldKeys_aux [DecidableEq κ] {β ι : Type}
    (step : List (κ × β) → ι → List (κ × β)) (key : ι → κ)
    (hkeys : ∀ c x, (step c x).map (fun e => e.1)
      = if key x ∈ c.map (fun e => e.1) then c.map (fun e => e.1)
        else c.map (fun e => e.1) ++ [key x]) :
    ∀ (ps : List ι) (c : List (κ × β)),
      (ps.foldl step c).map (fun e => e.1)
        = c.map (fun e => e.1)
            ++ firstOccurAux (c.map (fun e => e.1)) (ps.map key) := by
  intro ps
  induction ps with
  | nil =>
      intro c
      simp [firstOccurAux]
  | cons p ps2 ih =>
      intro c
      rw [List.foldl_cons, ih (step c p), hkeys c p, List.map_cons,
        firstOccurAux_cons]
      by_cases hmem : key p ∈ c.map (fun e => e.1)
      · rw [if_pos hmem]
        rw [if_pos hmem]
      · rw [if_neg hmem,
          firstOccurAux_congr (List.map key ps2)
            (c.map (fun e => e.1) ++ [key p]) (key p :: c.map (fun e => e.1))
            (by intro a; simp; tauto)]
        simp
        rw [if_neg hmem]

/-- One counter increment at one key. -/
theorem lookupCount_countStep (p q : String) :
    ∀ c, lookupCount (countStep c p) q
      = if q = p then lookupCount c q + 1 else lookupCount c q := by
  intro c
  induction c with
  | nil =>
      unfold countStep lookupCount
      by_cases h : q = p
      · subst h
        simp [lookupCount]
      · have h2 : ¬ p = q := Ne.symm h
        simp [lookupCount, h, h2]
  | cons z rest ih =>
      rcases z with ⟨s, m⟩
      unfold countStep
      by_cases hsp : s = p
      · subst hsp
        by_cases hq : s = q
        · subst hq
          simp [lookupCount]
        · have h2 : ¬ q = s := Ne.symm hq
          simp [lookupCount, hq, h2]
      · rw [if_neg hsp]
        by_cases hq : s = q
        · subst hq
          have h2 : ¬ s = p := hsp
          have h3 : ¬ p = s := Ne.symm hsp
          simp [lookupCount, h2, h3]
        · have h2 : ¬ q = s := Ne.symm hq
          simp [lookupCount, hq, h2, ih]

/-- The counter value of a person over a fold is the number of counted rows
with that person. -/
theorem lookupCount_fold (p : String) :
    ∀ (rows : List Row) (c : List (String × Nat)),
      lookupCount (rows.foldl (fun c2 r => countStep c2 r.person) c) p
        = lookupCount c p
            + (rows.filter (fun r => r.person == p)).length := by
  intro rows
  induction rows with
  | nil =>
      intro c
      simp
  | cons r rows2 ih =>
      intro c
      rw [List.foldl_cons, ih, lookupCount_countStep]
      by_cases h : p = r.person
      · have hb : (r.person == p) = true := by simp [h.symm]
        simp [List.filter_cons, hb, h]
        omega
      · have h2 : ¬ r.person = p := Ne.symm h
        have hb : (r.person == p) = false := by simp [h2]
        simp [List.filter_cons, hb, h]

/-- C8: pivot ordering. The person columns are the counter entries sorted
by total item count descending; the sort is stable: entries of equal count
keep the counter order, and the counter lists persons in order of first
appearance in the row stream; a person's counter value is the number of
their rows; the data rows follow the insertion order of the first
appearance of each order id; and any two row collections with identical
counters (same counts and same first-appearance order) produce identical
column orders. -/
theorem c8_pivot_ordering :
    (∀ rows : List Row,
       pivotPeople rows = (mostCommon (personCounter rows)).map (fun x => x.1))
    ∧ (∀ rows : List Row,
       List.Pairwise (fun a b => b.2 ≤ a.2) (mostCommon (personCounter rows)))
    ∧ (∀ (rows : List Row) (n : Nat),
       (mostCommon (personCounter rows)).filter (fun y => y.2 == n)
         = (personCounter rows).filter (fun y => y.2 == n))
    ∧ (∀ rows : List Row,
       (personCounter rows).map (fun x => x.1)
         = firstOccur (rows.map (fun r => r.person)))
    ∧ (∀ (rows : List Row) (p : String),
       lookupCount (personCounter rows) p
         = (rows.filter (fun r => r.person == p)).length)
    ∧ (∀ rows : List Row,
       (pivotGroups rows).map (fun e => e.1)
         = firstOccur (rows.map (fun r => r.order_id)))
    ∧ (∀ rows rows2 : List Row,
       personCounter rows = personCounter rows2 →
       pivotPeople rows = pivotPeople rows2) := by
  refine ⟨fun rows => rfl, fun rows => mostCommon_pairwise _,
    fun rows n => mostCommon_filter n _, ?_, ?_, ?_, ?_⟩
  · intro rows
    have h := foldKeys_aux (fun c r => countStep c r.person)
      (fun r => r.person) (fun c r => countStep_keys r.person c) rows []
    simpa [personCounter, firstOccur] using h
  · intro rows p
    have h := lookupCount_fold p rows []
    simpa [personCounter, lookupCount] using h
  · intro rows
    have h := foldKeys_aux (fun gs r => setGroup gs r.order_id r)
      (fun r => r.order_id) (fun gs r => setGroup_keys r.order_id r gs) rows []
    simpa [pivotGroups, firstOccur] using h
  · intro rows rows2 h
    unfold pivotPeople
    rw [h]

/-- Witness for C8: two concrete row collections in different orders with
identical counters produce the same column order. -/
theorem c8_witness :
    pivotPeople [rowA, rowB, rowB2] = pivotPeople [rowA, rowB2, rowB] :=
  c8_pivot_ordering.2.2.2.2.2.2 [rowA, rowB, rowB2] [rowA, rowB2, rowB]
    (by decide)

/-- A dict write is visible at its key and invisible elsewhere. -/
theorem lookupField_dictSet (k : String) (v : Json) :
    ∀ (d : List (String × Json)) (q : String),
      lookupField (dictSet d k v) q = if q = k then some v else lookupField d q := by
  intro d
  induction d with
  | nil =>
      intro q
      unfold dictSet lookupField
      by_cases h : q = k
      · subst h
        simp [lookupField]
      · have h2 : ¬ k = q := Ne.symm h
        simp [lookupField, h, h2]
  | cons z rest ih =>
      rcases z with ⟨k0, v0⟩
      intro q
      unfold dictSet
      by_cases h : k0 = k
      · subst h
        unfold lookupField
        by_cases hq : k0 = q
        · subst hq
          simp
        · have h2 : ¬ q = k0 := Ne.symm hq
          simp [hq, h2, lookupField]
      · rw [if_neg h]
        unfold lookupField
        by_cases hq : k0 = q
        · subst hq
          simp [h]
        · simp [hq, ih q]

/-- The group update writes the person cell and, away from the date and
store keys, changes nothing else. -/
theorem lookupField_groupUpd (g : List (String × Json)) (r : Row) (p : String)
    (hd : p ≠ "date") (hs : p ≠ "store") :
    lookupField (groupUpd g r) p
      = if p = r.person then some (.str (r.item ++ ". " ++ r.options))
        else lookupField g p := by
  unfold groupUpd
  rw [lookupField_dictSet, lookupField_dictSet, lookupField_dictSet]
  simp [hd, hs]

/-- A group write through by_order_id is visible at its key, with the group
that was there before (or a fresh one), and invisible elsewhere. -/
theorem lookupGroup_setGroup (k : Json) (r : Row) :
    ∀ (gs : List (Json × List (String × Json))) (q : Json),
      lookupGroup (setGroup gs k r) q
        = if q = k then some (groupUpd ((lookupGroup gs k).getD []) r)
          else lookupGroup gs q := by
  intro gs
  induction gs with
  | nil =>
      intro q
      unfold setGroup lookupGroup
      by_cases h : q = k
      · subst h
        simp [lookupGroup]
      · have h2 : ¬ k = q := Ne.symm h
        simp [lookupGroup, h, h2]
  | cons z rest ih =>
      rcases z with ⟨k0, g⟩
      intro q
      unfold setGroup
      by_cases h : k0 = k
      · subst h
        unfold lookupGroup
        by_cases hq : k0 = q
        · subst hq
          simp
        · have h2 : ¬ q = k0 := Ne.symm hq
          simp [hq, h2, lookupGroup]
      · rw [if_neg h]
        unfold lookupGroup
        by_cases hq : k0 = q
        · subst hq
          simp [h, Ne.symm h]
        · simp [hq, ih q, h]

/-- Processing one more row updates the groups through one write. -/
theorem pivotGroups_concat (rows : List Row) (r : Row) :
    pivotGroups (rows ++ [r]) = setGroup (pivotGroups rows) r.order_id r := by
  unfold pivotGroups
  rw [List.foldl_append]
  rfl

/-- The pivot cell as a lookup in the group found for the key, with a
missing group read as the empty group. -/
theorem pivotCell_getD (rows : List Row) (k : Json) (p : String) :
    pivotCell rows k p
      = lookupField ((lookupGroup (pivotGroups rows) k).getD []) p := by
  unfold pivotCell
  rcases lookupGroup (pivotGroups rows) k with _ | g
  · rfl
  · rfl

/-- The pivot cell of an order and a person column holds the rendering of
that person's last row in that order, and is empty when no row matches. -/
theorem pivotCell_last :
    ∀ (rows : List Row) (k : Json) (p : String), p ≠ "date" → p ≠ "store" →
      pivotCell rows k p
        = ((rows.filter (fun r2 => decide (r2.order_id = k)
             && decide (r2.person = p))).getLast?).map
            (fun r2 => Json.str (r2.item ++ ". " ++ r2.options)) := by
  intro rows
  induction rows using List.reverseRecOn with
  | nil =>
      intro k p _ _
      rfl
  | append_singleton rows r ih =>
      intro k p hd hs
      rw [pivotCell_getD, pivotGroups_concat, lookupGroup_setGroup,
        List.filter_append]
      by_cases hk : k = r.order_id
      · rw [if_pos hk, ← hk]
        simp only [Option.getD_some]
        rw [lookupField_groupUpd _ _ _ hd hs]
        by_cases hp : p = r.person
        · rw [if_pos hp]
          have hfr : [r].filter (fun r2 => decide (r2.order_id = k)
              && decide (r2.person = p)) = [r] := by
            simp [List.filter, hk, hp]
          rw [hfr, List.getLast?_concat]
          simp [hp]
        · rw [if_neg hp]
          have hfr : [r].filter (fun r2 => decide (r2.order_id = k)
              && decide (r2.person = p)) = [] := by
            have h2 : r.person ≠ p := Ne.symm hp
            simp [List.filter, h2]
          rw [hfr, List.append_nil, ← pivotCell_getD, ih k p hd hs]
      · rw [if_neg hk]
        have hfr : [r].filter (fun r2 => decide (r2.order_id = k)
            && decide (r2.person = p)) = [] := by
          have h2 : r.order_id ≠ k := Ne.symm hk
          simp [List.filter, h2]
        rw [hfr, List.append_nil, ← pivotCell_getD, ih k p hd hs]

set_option maxRecDepth 65536 in
/-- C9 counterexample: at the spec example order the pivot cell of the Amy
column is the string Taco followed by a dot and a trailing space, not the
claimed string without the space: the cell renders item, dot, space,
options even when the options summary is empty. -/
theorem c9_counterexample :
    (executeRows [exOrder]).map
        (fun rows => pivotCell rows (.str "order-1") "Amy")
      = .ok (some (.str "Taco. "))
    ∧ (Except.ok (some (Json.str "Taco. ")) : Except PyErr (Option Json))
      ≠ .ok (some (.str "Taco.")) := by
  constructor
  · decide
  · decide

set_option maxRecDepth 65536 in
/-- C9 amended: the cell of a person column in an order row holds item,
dot, space, options of that person's last row in that order (later rows of
the same person and order overwrite earlier ones), for person columns other
than the reserved date and store keys; at the spec example the Amy cell is
the string Taco dot with a trailing space (the empty options summary leaves
the space of the constant separator) and the Bo cell is Burrito dot space
Protein colon space Steak. -/
theorem c9_pivot_cell_last_item :
    (∀ (rows : List Row) (k : Json) (p : String), p ≠ "date" → p ≠ "store" →
       pivotCell rows k p
         = ((rows.filter (fun r2 => decide (r2.order_id = k)
              && decide (r2.person = p))).getLast?).map
             (fun r2 => Json.str (r2.item ++ ". " ++ r2.options)))
    ∧ (executeRows [exOrder]).map
        (fun rows => pivotCell rows (.str "order-1") "Amy")
        = .ok (some (.str "Taco. "))
    ∧ (executeRows [exOrder]).map
        (fun rows => pivotCell rows (.str "order-1") "Bo")
        = .ok (some (.str "Burrito. Protein: Steak")) :=
  ⟨pivotCell_last, by decide, by decide⟩

/-- Witness for C9: the last-row rule applied at a concrete row collection
where Bo has two rows in order a. -/
theorem c9_witness :
    pivotCell [rowA, rowB, rowB2] (.str "a") "Bo"
      = (([rowA, rowB, rowB2].filter (fun r2 => decide (r2.order_id = .str "a")
           && decide (r2.person = "Bo"))).getLast?).map
          (fun r2 => Json.str (r2.item ++ ". " ++ r2.options)) :=
  c9_pivot_cell_last_item.1 [rowA, rowB, rowB2] (.str "a") "Bo"
    (by decide) (by decide)

end DD
